import Mathlib

/-!
# Quota sets binding (openstack/compute/v2/extensions/quota)

A shallow embedding of `requests.go` and `results.go`: the request builders
(`CreateOpts.ToQuotaCreateMap`, `CreateOptsExt.ToServerCreateMap`), the
transport calls (`Create`, `Get`, `Delete`) over an abstract service client,
and the result decoders (`keyPairResult.Extract`, `ExtractQuotaSets`,
`QuotaSetPage.IsEmpty`).

Response bodies, which JSON decoding builds and the decoders only read, and
the body `ToQuotaCreateMap` builds afresh, are embedded as the tree type
`Value`; a Go `map[string]interface{}` is there an association list read by
its first matching key. The maps `ToServerCreateMap` works on are made by
another builder and written to in place, so they are map objects in a heap,
held by reference (`Cell`, `Heap`). A Go `int` is a 64-bit integer (`GoInt`).
-/

namespace Quotasets

/-! ## Dynamic values and maps -/

/-- A Go `interface{}` as JSON decoding builds it, and as
`ToQuotaCreateMap` builds it: `nil`, a bool, a number, a string, a slice, or
a `map[string]interface{}`. A number is the `float64` of a JSON document,
given by its exact value `m / 2 ^ e` (every finite `float64` is of this
form; JSON has no other). These values are trees: the maps in them are made
afresh by the code that builds them, and the code under study only reads
them. -/
inductive Value where
  | null : Value
  | bool (b : Bool) : Value
  | num (m : Int) (e : Nat) : Value
  | str (s : String) : Value
  | arr (xs : List Value) : Value
  | obj (kvs : List (String × Value)) : Value
  deriving Inhabited

/-- The number a JSON integer literal decodes to. -/
def Value.int (n : Int) : Value := Value.num n 0

/-- A Go `map[string]interface{}`, as the list of its entries. -/
abbrev GoMap := List (String × Value)

/-- Reading `m[k]`: the value stored under `k`, if any. -/
def GoMap.get (m : GoMap) (k : String) : Option Value :=
  match m with
  | [] => none
  | (k', v) :: rest => if k' = k then some v else GoMap.get rest k

/-- The assignment `m[k] = v`: overwrite the entry for `k` when there is one,
add the entry otherwise. -/
def GoMap.set (m : GoMap) (k : String) (v : Value) : GoMap :=
  match m with
  | [] => [(k, v)]
  | (k', v') :: rest => if k' = k then (k, v) :: rest else (k', v') :: GoMap.set rest k v

/-- The keys of a map. -/
def GoMap.keys (m : GoMap) : List String := m.map Prod.fst

/-- A Go `error`: one made by `errors.New` / `fmt.Errorf` (a message), or the
`*mapstructure.Error` that aggregates the messages of a failed decode. -/
inductive GoError where
  | errorString (s : String) : GoError
  | decodeError (errors : List String) : GoError
  deriving DecidableEq, Repr, Inhabited

/-! ## requests.go: the quota request builder -/

/-- The `CreateOpts` struct. -/
structure CreateOpts where
  Name : String
  PublicKey : String
  deriving DecidableEq, Repr, Inhabited

/-- The `CreateOptsBuilder` interface: its one method, as the pair
`(map, error)` it returns (`none` is Go's `nil`). -/
structure CreateOptsBuilder where
  ToQuotaCreateMap : Option GoMap × Option GoError

/-- `CreateOpts.ToQuotaCreateMap` (requests.go, lines 58-71). -/
def CreateOpts.ToQuotaCreateMap (opts : CreateOpts) : Option GoMap × Option GoError :=
  if opts.Name = "" then
    (none, some (GoError.errorString "Missing field required for quota creation: Name"))
  else
    let quota : GoMap := []
    let quota := quota.set "name" (Value.str opts.Name)
    let quota := if opts.PublicKey ≠ "" then quota.set "public_key" (Value.str opts.PublicKey) else quota
    (some [("quota", Value.obj quota)], none)

/-- A `CreateOpts` passed where a `CreateOptsBuilder` is expected. -/
def CreateOpts.toBuilder (opts : CreateOpts) : CreateOptsBuilder :=
  ⟨opts.ToQuotaCreateMap⟩

/-! ## results.go: the QuotaSet record -/

/-- A Go `int` (64 bits): an integer from `-2^63` up to `2^63 - 1`. -/
structure GoInt where
  val : Int
  inRange : -9223372036854775808 ≤ val ∧ val < 9223372036854775808
  deriving DecidableEq, Repr

/-- The zero value of `int`. -/
def GoInt.zero : GoInt := ⟨0, by decide⟩

/-- The least `int`, `-2^63`. -/
def GoInt.least : GoInt := ⟨-9223372036854775808, by decide⟩

/-- The Go conversion `int64(x)` of the `float64` `x = m / 2 ^ e`: the
fraction is dropped (truncation toward zero); a value outside the range of
`int64` has no result fixed by the language, and gives the least `int64` on
amd64, which is what is taken here. -/
def float64ToInt (m : Int) (e : Nat) : GoInt :=
  if h : -9223372036854775808 ≤ Int.tdiv m (2 ^ e) ∧ Int.tdiv m (2 ^ e) < 9223372036854775808 then
    ⟨Int.tdiv m (2 ^ e), h⟩
  else GoInt.least

/-- The `QuotaSet` struct; each field is listed with its `mapstructure` tag. -/
structure QuotaSet where
  /-- tag `id` -/
  ID : String
  /-- tag `fixed_ips` -/
  FixedIps : GoInt
  /-- tag `floating_ips` -/
  FloatingIps : GoInt
  /-- tag `injected_file_content_bytes` -/
  InjectedFileContentBytes : GoInt
  /-- tag `injected_file_path_bytes` -/
  InjectedFilePathBytes : GoInt
  /-- tag `injected_files` -/
  InjectedFiles : GoInt
  /-- tag `key_pairs` -/
  KeyPairs : GoInt
  /-- tag `meta_data_items` -/
  MetadataItems : GoInt
  /-- tag `ram` -/
  Ram : GoInt
  /-- tag `security_group_rules` -/
  SecurityGroupRules : GoInt
  /-- tag `security_groups` -/
  SecurityGroups : GoInt
  /-- tag `cores` -/
  Cores : GoInt
  /-- tag `instances` -/
  Instances : GoInt
  deriving DecidableEq, Repr

/-- The zero value of `QuotaSet`: `""` for `ID`, `0` for every limit. -/
def QuotaSet.zero : QuotaSet :=
  ⟨"", GoInt.zero, GoInt.zero, GoInt.zero, GoInt.zero, GoInt.zero, GoInt.zero, GoInt.zero,
   GoInt.zero, GoInt.zero, GoInt.zero, GoInt.zero, GoInt.zero⟩

instance : Inhabited QuotaSet := ⟨QuotaSet.zero⟩

/-- The integer fields of `QuotaSet`, in declaration order. -/
inductive IntField where
  | FixedIps | FloatingIps | InjectedFileContentBytes | InjectedFilePathBytes
  | InjectedFiles | KeyPairs | MetadataItems | Ram | SecurityGroupRules
  | SecurityGroups | Cores | Instances
  deriving DecidableEq, Repr

/-- The `mapstructure` tag written on each integer field of `QuotaSet`
(results.go, lines 33-56). -/
def IntField.tag : IntField → String
  | .FixedIps => "fixed_ips"
  | .FloatingIps => "floating_ips"
  | .InjectedFileContentBytes => "injected_file_content_bytes"
  | .InjectedFilePathBytes => "injected_file_path_bytes"
  | .InjectedFiles => "injected_files"
  | .KeyPairs => "key_pairs"
  | .MetadataItems => "meta_data_items"
  | .Ram => "ram"
  | .SecurityGroupRules => "security_group_rules"
  | .SecurityGroups => "security_groups"
  | .Cores => "cores"
  | .Instances => "instances"

/-- Reading an integer field of a `QuotaSet`. -/
def IntField.read : IntField → QuotaSet → GoInt
  | .FixedIps, q => q.FixedIps
  | .FloatingIps, q => q.FloatingIps
  | .InjectedFileContentBytes, q => q.InjectedFileContentBytes
  | .InjectedFilePathBytes, q => q.InjectedFilePathBytes
  | .InjectedFiles, q => q.InjectedFiles
  | .KeyPairs, q => q.KeyPairs
  | .MetadataItems, q => q.MetadataItems
  | .Ram, q => q.Ram
  | .SecurityGroupRules, q => q.SecurityGroupRules
  | .SecurityGroups, q => q.SecurityGroups
  | .Cores, q => q.Cores
  | .Instances, q => q.Instances

/-- Every integer field. -/
def IntField.all : List IntField :=
  [.FixedIps, .FloatingIps, .InjectedFileContentBytes, .InjectedFilePathBytes,
   .InjectedFiles, .KeyPairs, .MetadataItems, .Ram, .SecurityGroupRules,
   .SecurityGroups, .Cores, .Instances]

/-- The tag of the one string field, `ID`. -/
def idTag : String := "id"

/-! ## The generic decoder (`mapstructure.Decode`) -/

/-- The name of a value's Go kind, as decode errors print it. -/
def Value.kindName : Value → String
  | .null => "invalid"
  | .bool _ => "bool"
  | .num _ _ => "float64"
  | .str _ => "string"
  | .arr _ => "slice"
  | .obj _ => "map"

/-- The name of a value's Go type, as decode errors print it. -/
def Value.typeName : Value → String
  | .null => "<nil>"
  | .bool _ => "bool"
  | .num _ _ => "float64"
  | .str _ => "string"
  | .arr _ => "[]interface {}"
  | .obj _ => "map[string]interface {}"

/-- Case folding of one rune, as far as ASCII is concerned: the upper-case
letters, the Kelvin sign (folds to `k`) and the long s (folds to `s`). -/
def foldRune (c : Char) : Char :=
  if 65 ≤ c.toNat ∧ c.toNat ≤ 90 then Char.ofNat (c.toNat + 32)
  else if c.toNat = 0x212A then Char.ofNat 107
  else if c.toNat = 0x017F then Char.ofNat 115
  else c

/-- Modelled from the spec: `strings.EqualFold` of the Go standard library,
which the decoder uses to match a map key against a field name when no key
equals it. Exact whenever one side is ASCII, as every field name here is. -/
def equalFold (s t : String) : Bool :=
  s.toList.map foldRune == t.toList.map foldRune

/-- Modelled from the spec: the decoder's `appendErrors`, which flattens an
aggregated decode error into the running list of messages. -/
def appendErrors (errors : List String) (err : GoError) : List String :=
  match err with
  | .decodeError es => errors ++ es
  | .errorString s => errors ++ [s]

/-- Appends the error of one field or element, if there is one. -/
def collectError (errors : List String) (err : Option GoError) : List String :=
  match err with
  | none => errors
  | some e => appendErrors errors e

/-- The error a struct or slice decode returns from its collected messages. -/
def errorOf (errors : List String) : Option GoError :=
  if errors.length > 0 then some (GoError.decodeError errors) else none

/-- Modelled from the spec: decoding into a `string` (package
`github.com/mitchellh/mapstructure`, not under src/). `nil` data leaves the
target as it is; a string is stored; anything else is an error, since
`Decode` runs without weakly typed input. -/
def decodeString (name : String) (data : Value) (val : String) : String × Option GoError :=
  match data with
  | .null => (val, none)
  | .str s => (s, none)
  | d => (val, some (GoError.errorString
      ("'" ++ name ++ "' expected type 'string', got unconvertible type '" ++ d.typeName ++ "'")))

/-- Modelled from the spec: decoding into an `int` (mapstructure
`decodeInt`). `nil` data leaves the target as it is; a `float64` is stored as
`int64(x)`; anything else is an error. -/
def decodeInt (name : String) (data : Value) (val : GoInt) : GoInt × Option GoError :=
  match data with
  | .null => (val, none)
  | .num m e => (float64ToInt m e, none)
  | d => (val, some (GoError.errorString
      ("'" ++ name ++ "' expected type 'int', got unconvertible type '" ++ d.typeName ++ "'")))

/-- Modelled from the spec: how the struct decoder finds the raw value for a
field name: the entry whose key equals the name, else the first entry whose
key equals it under case folding (Go leaves open which, when several do). -/
def fieldValue (data : GoMap) (fieldName : String) : Option Value :=
  match data.get fieldName with
  | some v => some v
  | none => (data.find? (fun kv => equalFold kv.1 fieldName)).map Prod.snd

/-- The dotted path under which a field reports its errors. -/
def fieldPath (name fieldName : String) : String :=
  if name ≠ "" then name ++ "." ++ fieldName else fieldName

/-- Modelled from the spec: one field of a struct decode: a field with no
matching key is skipped, otherwise the raw value is decoded into it. -/
def decodeField {α : Type} (decode : String → Value → α → α × Option GoError)
    (name : String) (data : GoMap) (fieldName : String) (val : α) : α × Option GoError :=
  match fieldValue data fieldName with
  | none => (val, none)
  | some raw => decode (fieldPath name fieldName) raw val

/-- Modelled from the spec: decoding into a `QuotaSet` struct (mapstructure
`decodeStruct` at the type of results.go, lines 30-57): the data must be a
map; every field is decoded from the entry its tag selects; the errors of all
fields are collected, and the fields that decoded are set all the same. -/
def decodeQuotaSet (name : String) (data : Value) (val : QuotaSet) : QuotaSet × Option GoError :=
  match data with
  | .null => (val, none)
  | .obj m =>
    let int (f : IntField) := decodeField decodeInt name m f.tag (f.read val)
    let id := decodeField decodeString name m idTag val.ID
    let errors := (IntField.all.map (fun f => (int f).2)).foldl collectError (collectError [] id.2)
    ({ ID := id.1,
       FixedIps := (int .FixedIps).1,
       FloatingIps := (int .FloatingIps).1,
       InjectedFileContentBytes := (int .InjectedFileContentBytes).1,
       InjectedFilePathBytes := (int .InjectedFilePathBytes).1,
       InjectedFiles := (int .InjectedFiles).1,
       KeyPairs := (int .KeyPairs).1,
       MetadataItems := (int .MetadataItems).1,
       Ram := (int .Ram).1,
       SecurityGroupRules := (int .SecurityGroupRules).1,
       SecurityGroups := (int .SecurityGroups).1,
       Cores := (int .Cores).1,
       Instances := (int .Instances).1 },
     errorOf errors)
  | d => (val, some (GoError.errorString ("'" ++ name ++ "' expected a map, got '" ++ d.kindName ++ "'")))

/-- Modelled from the spec: decoding into a `*QuotaSet` (mapstructure
`decodePtr`): a fresh `QuotaSet` is decoded and the pointer is set to it only
when that decode has no error. -/
def decodeQuotaSetPtr (name : String) (data : Value) (val : Option QuotaSet) :
    Option QuotaSet × Option GoError :=
  match data with
  | .null => (val, none)
  | d =>
    match decodeQuotaSet name d QuotaSet.zero with
    | (realVal, none) => (some realVal, none)
    | (_, some err) => (val, some err)

/-- The error of a struct with a single field. -/
def structError (err : Option GoError) : Option GoError :=
  errorOf (collectError [] err)

/-- Modelled from the spec: decoding into the struct `res` of `Extract`
(results.go, lines 98-100), whose one field `QuotaSet *QuotaSet` has the tag
`quota`. -/
def decodeExtractTarget (name : String) (data : Value) (val : Option QuotaSet) :
    Option QuotaSet × Option GoError :=
  match data with
  | .null => (val, none)
  | .obj m =>
    let f := decodeField decodeQuotaSetPtr name m "quota" val
    (f.1, structError f.2)
  | d => (val, some (GoError.errorString ("'" ++ name ++ "' expected a map, got '" ++ d.kindName ++ "'")))

/-- The local struct `pair` of `ExtractQuotaSets` (results.go, lines 72-74). -/
structure pair where
  /-- tag `quota` -/
  QuotaSet : QuotaSet
  deriving DecidableEq, Repr

/-- The zero value of `pair`. -/
def pair.zero : pair := ⟨QuotaSet.zero⟩

/-- Modelled from the spec: decoding into the struct `pair`, whose one field
`QuotaSet QuotaSet` has the tag `quota` (mapstructure `decodeStruct`). -/
def decodePair (name : String) (data : Value) (val : pair) : pair × Option GoError :=
  match data with
  | .null => (val, none)
  | .obj m =>
    let f := decodeField decodeQuotaSet name m "quota" val.QuotaSet
    ({ QuotaSet := f.1 }, structError f.2)
  | d => (val, some (GoError.errorString ("'" ++ name ++ "' expected a map, got '" ++ d.kindName ++ "'")))

/-- Modelled from the spec: decoding into a `[]pair` (mapstructure
`decodeSlice`): the data must be a slice; a slice of the same length is made,
each element decoded into its zero value under the name `name[i]`, the slice
is stored whatever the elements did, and their errors are collected. -/
def decodePairSlice (name : String) (data : Value) (val : List pair) :
    List pair × Option GoError :=
  match data with
  | .null => (val, none)
  | .arr xs =>
    let elems := xs.enum.map
      (fun ix => decodePair (name ++ "[" ++ toString ix.1 ++ "]") ix.2 pair.zero)
    (elems.map Prod.fst, errorOf ((elems.map Prod.snd).foldl collectError []))
  | d => (val, some (GoError.errorString
      ("'" ++ name ++ "': source data must be an array or slice, got " ++ d.kindName)))

/-- Modelled from the spec: decoding into the struct `resp` of
`ExtractQuotaSets` (results.go, lines 76-78), whose one field
`QuotaSets []pair` has the tag `quotasets`. -/
def decodeListTarget (name : String) (data : Value) (val : List pair) :
    List pair × Option GoError :=
  match data with
  | .null => (val, none)
  | .obj m =>
    let f := decodeField decodePairSlice name m "quotasets" val
    (f.1, structError f.2)
  | d => (val, some (GoError.errorString ("'" ++ name ++ "' expected a map, got '" ++ d.kindName ++ "'")))

/-! ## results.go: result wrappers and extraction -/

/-- The `gophercloud.Result` struct, as far as this package reads it: the
decoded response body and the error of the call. -/
structure Result where
  Body : Value
  Err : Option GoError

/-- The `keyPairResult` struct, which embeds `gophercloud.Result`. -/
structure keyPairResult extends Result

/-- `CreateResult` embeds `keyPairResult`. -/
structure CreateResult extends keyPairResult

/-- `GetResult` embeds `keyPairResult`. -/
structure GetResult extends keyPairResult

/-- `DeleteResult` embeds `gophercloud.ErrResult`, which carries only `Err`. -/
structure DeleteResult where
  Err : Option GoError

/-- `keyPairResult.Extract` (results.go, lines 92-104): the pair
`(*QuotaSet, error)` it returns. -/
def keyPairResult.Extract (r : keyPairResult) : Option QuotaSet × Option GoError :=
  match r.Err with
  | some e => (none, some e)
  | none =>
    let res : Option QuotaSet := none
    let (res, err) := decodeExtractTarget "" r.Body res
    (res, err)

/-- `Extract` as promoted to `CreateResult`. -/
def CreateResult.Extract (r : CreateResult) : Option QuotaSet × Option GoError :=
  r.tokeyPairResult.Extract

/-- `Extract` as promoted to `GetResult`. -/
def GetResult.Extract (r : GetResult) : Option QuotaSet × Option GoError :=
  r.tokeyPairResult.Extract

/-- `QuotaSetPage`, a `pagination.SinglePageBase`: the body of the one page. -/
structure QuotaSetPage where
  Body : Value

/-- `ExtractQuotaSets` (results.go, lines 70-86), applied to a
`QuotaSetPage`: the decode fills `resp.QuotaSets`; `results` is made with the
same length, and the loop stores the `QuotaSet` of the pair at index `i` into
`results[i]`. -/
def ExtractQuotaSets (page : QuotaSetPage) : List QuotaSet × Option GoError :=
  let resp : List pair := []
  let (resp, err) := decodeListTarget "" page.Body resp
  let results := List.replicate resp.length QuotaSet.zero
  let results := resp.enum.foldl (fun rs ip => rs.set ip.1 ip.2.QuotaSet) results
  (results, err)

/-- `QuotaSetPage.IsEmpty` (results.go, lines 64-68). -/
def QuotaSetPage.IsEmpty (page : QuotaSetPage) : Bool × Option GoError :=
  let (ks, err) := ExtractQuotaSets page
  (ks.length == 0, err)

/-- The sample document of results.go, lines 10-28. -/
def sample : Value :=
  .obj [("quota_set", .obj [
    ("fixed_ips", .int (-1)),
    ("security_groups", .int 10),
    ("id", .str "56b6c3eb639e48c691052919e5a60dc3"),
    ("injected_files", .int 5),
    ("floating_ips", .int 0),
    ("injected_file_path_bytes", .int 255),
    ("cores", .int 108),
    ("security_group_rules", .int 20),
    ("key_pairs", .int 10),
    ("instances", .int 25),
    ("ram", .int 204800),
    ("metadata_items", .int 128),
    ("injected_file_content_bytes", .int 10240)])]

/-! ## requests.go: the transport calls -/

/-- One call on the service client: `Post` with its URL, JSON body and
accepted status codes, `Get` with its URL, `Delete` with its URL. -/
inductive Call where
  | post (url : String) (jsonBody : Option GoMap) (okCodes : List Nat) : Call
  | get (url : String) : Call
  | delete (url : String) : Call

/-- The `gophercloud.ServiceClient`, as abstract operations: given the calls
made so far and the call made now, what the client stores in the response
body and the error it returns. -/
structure ServiceClient where
  respond : List Call → Call → Value × Option GoError

/-- The URL builders of this package (`createURL`, `getURL`, `deleteURL`),
which live in a file that is not under src/ and are taken as parameters. -/
structure URLBuilders where
  createURL : ServiceClient → String
  getURL : ServiceClient → String → String
  deleteURL : ServiceClient → String → String

/-- `client.Post(url, body, &res.Body, &RequestOpts{OkCodes: ...})`: one call,
appended to the calls made so far. -/
def ServiceClient.Post (client : ServiceClient) (url : String) (jsonBody : Option GoMap)
    (okCodes : List Nat) (calls : List Call) : (Value × Option GoError) × List Call :=
  (client.respond calls (Call.post url jsonBody okCodes), calls ++ [Call.post url jsonBody okCodes])

/-- `client.Get(url, &res.Body, nil)`. -/
def ServiceClient.Get (client : ServiceClient) (url : String) (calls : List Call) :
    (Value × Option GoError) × List Call :=
  (client.respond calls (Call.get url), calls ++ [Call.get url])

/-- `client.Delete(url, nil)`. -/
def ServiceClient.Delete (client : ServiceClient) (url : String) (calls : List Call) :
    (Value × Option GoError) × List Call :=
  (client.respond calls (Call.delete url), calls ++ [Call.delete url])

/-- `Create` (requests.go, lines 73-88): the result wrapper and the calls made
on the client when it returns. -/
def Create (urls : URLBuilders) (client : ServiceClient) (opts : CreateOptsBuilder)
    (calls : List Call) : CreateResult × List Call :=
  let res : CreateResult := ⟨⟨⟨Value.null, none⟩⟩⟩
  match opts.ToQuotaCreateMap with
  | (_, some err) => (⟨⟨⟨res.Body, some err⟩⟩⟩, calls)
  | (reqBody, none) =>
    let (resp, calls) := client.Post (urls.createURL client) reqBody [200] calls
    (⟨⟨⟨resp.1, resp.2⟩⟩⟩, calls)

/-- `Get` (requests.go, lines 90-95). -/
def Get (urls : URLBuilders) (client : ServiceClient) (name : String)
    (calls : List Call) : GetResult × List Call :=
  let (resp, calls) := client.Get (urls.getURL client name) calls
  (⟨⟨⟨resp.1, resp.2⟩⟩⟩, calls)

/-- `Delete` (requests.go, lines 97-102). -/
def Delete (urls : URLBuilders) (client : ServiceClient) (name : String)
    (calls : List Call) : DeleteResult × List Call :=
  let (resp, calls) := client.Delete (urls.deleteURL client name) calls
  (⟨resp.2⟩, calls)

/-! ## requests.go: the server-creation extension -/

/-- What a Go call comes to: it returns a value, or it panics. -/
inductive Outcome (α : Type) where
  | returned (a : α) : Outcome α
  | panicked : Outcome α

/-- A value held in a server-creation map. These maps are made by the base
builder and written to by the extension, so a map value is what it is in Go,
a reference: nil, or the address of a map object in memory. Two entries that
hold the same address hold the same map. -/
inductive Cell where
  | null : Cell
  | bool (b : Bool) : Cell
  | num (m : Int) (e : Nat) : Cell
  | str (s : String) : Cell
  | slice (xs : List Cell) : Cell
  | map (ref : Option Nat) : Cell

/-- A map object: the entries of one `map[string]interface{}` in memory. -/
abbrev MapObject := List (String × Cell)

/-- Reading the entry for `k` in a map object. -/
def MapObject.get (m : MapObject) (k : String) : Option Cell :=
  match m with
  | [] => none
  | (k', v) :: rest => if k' = k then some v else MapObject.get rest k

/-- Writing the entry for `k` in a map object: overwrite it when there is
one, add it otherwise. -/
def MapObject.set (m : MapObject) (k : String) (v : Cell) : MapObject :=
  match m with
  | [] => [(k, v)]
  | (k', v') :: rest => if k' = k then (k, v) :: rest else (k', v') :: MapObject.set rest k v

/-- The keys of a map object. -/
def MapObject.keys (m : MapObject) : List String := m.map Prod.fst

/-- The map objects in memory, by address. -/
abbrev Heap := Nat → MapObject

/-- The index expression `m[k]` on a map reference: a nil map has no entry. -/
def Heap.index (heap : Heap) (ref : Option Nat) (k : String) : Option Cell :=
  match ref with
  | none => none
  | some a => MapObject.get (heap a) k

/-- The assignment `m[k] = v` on the map object at address `a`: that object
changes, for every holder of the address; no other object does. -/
def Heap.assign (heap : Heap) (a : Nat) (k : String) (v : Cell) : Heap :=
  fun b => if b = a then MapObject.set (heap a) k v else heap b

/-- The `servers.CreateOptsBuilder` interface: its one method
`ToServerCreateMap`, which runs on the memory it finds and comes to a pair
`(map, error)` and the memory it leaves, or panics. -/
structure ServerCreateOptsBuilder where
  ToServerCreateMap : Heap → Outcome ((Option Nat × Option GoError) × Heap)

/-- The `CreateOptsExt` struct: the embedded base builder and `KeyName`. -/
structure CreateOptsExt where
  CreateOptsBuilder : ServerCreateOptsBuilder
  KeyName : String

/-- `CreateOptsExt.ToServerCreateMap` (requests.go, lines 17-33). The type
assertion `base["server"].(map[string]interface{})` panics unless that entry
is a map; the assignment `serverMap["key_name"] = opts.KeyName` writes into
the map object that `base` holds under "server", and panics when that map is
nil; `base` itself is returned. -/
def CreateOptsExt.ToServerCreateMap (opts : CreateOptsExt) (heap : Heap) :
    Outcome ((Option Nat × Option GoError) × Heap) :=
  match opts.CreateOptsBuilder.ToServerCreateMap heap with
  | .panicked => .panicked
  | .returned ((_, some err), heap) => .returned ((none, some err), heap)
  | .returned ((base, none), heap) =>
    if opts.KeyName = "" then .returned ((base, none), heap)
    else
      match heap.index base "server" with
      | some (.map (some serverMap)) =>
        .returned ((base, none), heap.assign serverMap "key_name" (Cell.str opts.KeyName))
      | some (.map none) => .panicked
      | _ => .panicked

/-- A `CreateOptsExt` passed where a `servers.CreateOptsBuilder` is expected. -/
def CreateOptsExt.toBuilder (opts : CreateOptsExt) : ServerCreateOptsBuilder :=
  ⟨opts.ToServerCreateMap⟩

/-! ## Request building -/

/-- The error `ToQuotaCreateMap` makes for a missing name. -/
def missingName : GoError :=
  GoError.errorString "Missing field required for quota creation: Name"

/-- The body `ToQuotaCreateMap` builds when the name is not empty. -/
theorem ToQuotaCreateMap_of_name (opts : CreateOpts) (h : opts.Name ≠ "") :
    opts.ToQuotaCreateMap
      = (some [("quota", Value.obj
          (if opts.PublicKey = "" then [("name", Value.str opts.Name)]
           else [("name", Value.str opts.Name), ("public_key", Value.str opts.PublicKey)]))],
         none) := by
  by_cases hk : opts.PublicKey = "" <;> simp [CreateOpts.ToQuotaCreateMap, h, hk, GoMap.set]

/-- C1: for every CreateOpts with a non-empty Name, ToQuotaCreateMap returns
no error and a map with the single top-level key "quota", whose value is a map
where "name" is opts.Name, "public_key" is absent when opts.PublicKey is empty
and is opts.PublicKey otherwise, and which has no other key. -/
theorem ToQuotaCreateMap_body (opts : CreateOpts) (h : opts.Name ≠ "") :
    ∃ quota : GoMap,
      opts.ToQuotaCreateMap = (some [("quota", Value.obj quota)], none) ∧
      GoMap.keys [("quota", Value.obj quota)] = ["quota"] ∧
      quota.get "name" = some (Value.str opts.Name) ∧
      (opts.PublicKey = "" → quota.get "public_key" = none) ∧
      (opts.PublicKey ≠ "" → quota.get "public_key" = some (Value.str opts.PublicKey)) ∧
      quota.keys.Nodup ∧
      (∀ k, k ∈ quota.keys → k = "name" ∨ (k = "public_key" ∧ opts.PublicKey ≠ "")) := by
  by_cases hk : opts.PublicKey = ""
  · refine ⟨[("name", Value.str opts.Name)], ?_, rfl, ?_, ?_, ?_, ?_, ?_⟩
    · simp [CreateOpts.ToQuotaCreateMap, h, hk, GoMap.set]
    · simp [GoMap.get]
    · intro _; simp [GoMap.get]
    · intro hne; exact absurd hk hne
    · simp [GoMap.keys]
    · intro k hmem; left; simpa [GoMap.keys] using hmem
  · refine ⟨[("name", Value.str opts.Name), ("public_key", Value.str opts.PublicKey)],
      ?_, rfl, ?_, ?_, ?_, ?_, ?_⟩
    · simp [CreateOpts.ToQuotaCreateMap, h, hk, GoMap.set]
    · simp [GoMap.get]
    · intro he; exact absurd he hk
    · intro _; simp [GoMap.get]
    · simp [GoMap.keys]
    · intro k hmem
      simp only [GoMap.keys, List.map_cons, List.map_nil, List.mem_cons, List.mem_singleton,
        List.not_mem_nil, or_false] at hmem
      rcases hmem with hmem | hmem
      · exact Or.inl hmem
      · exact Or.inr ⟨hmem, hk⟩

/-- The body built for a name and a public key. -/
theorem ToQuotaCreateMap_body_witness :
    ∃ quota : GoMap,
      (CreateOpts.mk "q1" "ssh-rsa AAAA").ToQuotaCreateMap = (some [("quota", Value.obj quota)], none) ∧
      GoMap.keys [("quota", Value.obj quota)] = ["quota"] ∧
      quota.get "name" = some (Value.str "q1") ∧
      ("ssh-rsa AAAA" = "" → quota.get "public_key" = none) ∧
      ("ssh-rsa AAAA" ≠ "" → quota.get "public_key" = some (Value.str "ssh-rsa AAAA")) ∧
      quota.keys.Nodup ∧
      (∀ k, k ∈ quota.keys → k = "name" ∨ (k = "public_key" ∧ "ssh-rsa AAAA" ≠ "")) :=
  ToQuotaCreateMap_body (CreateOpts.mk "q1" "ssh-rsa AAAA") (by decide)

/-- C2: for every CreateOpts whose Name is empty, whatever PublicKey is,
ToQuotaCreateMap returns no map and the validation error, and Create returns a
result whose Err is that error and makes no call on the client; conversely
ToQuotaCreateMap returns an error only when Name is empty. -/
theorem Create_empty_name (urls : URLBuilders) (client : ServiceClient) (calls : List Call)
    (opts : CreateOpts) (h : opts.Name = "") :
    opts.ToQuotaCreateMap = (none, some missingName) ∧
    (Create urls client opts.toBuilder calls).1.Err = some missingName ∧
    (Create urls client opts.toBuilder calls).2 = calls ∧
    (∀ o : CreateOpts, o.ToQuotaCreateMap.2 ≠ none → o.Name = "") := by
  have h1 : opts.ToQuotaCreateMap = (none, some missingName) := by
    simp [CreateOpts.ToQuotaCreateMap, h, missingName]
  refine ⟨h1, ?_, ?_, ?_⟩
  · simp [Create, CreateOpts.toBuilder, h1]
  · simp [Create, CreateOpts.toBuilder, h1]
  · intro o ho
    by_contra hne
    apply ho
    simp [CreateOpts.ToQuotaCreateMap, hne]

/-- A client that answers every call with an empty body and no error. -/
def silentClient : ServiceClient := ⟨fun _ _ => (Value.null, none)⟩

/-- A client whose every call fails with the given error. -/
def failingClient (e : GoError) : ServiceClient := ⟨fun _ _ => (Value.null, some e)⟩

/-- URL builders that ignore the client. -/
def plainURLs : URLBuilders :=
  ⟨fun _ => "os-quota-sets", fun _ name => "os-quota-sets/" ++ name,
   fun _ name => "os-quota-sets/" ++ name⟩

/-- An empty name with a key: the validation error, and no call. -/
theorem Create_empty_name_witness :
    (CreateOpts.mk "" "ssh-rsa AAAA").ToQuotaCreateMap = (none, some missingName) ∧
    (Create plainURLs silentClient (CreateOpts.mk "" "ssh-rsa AAAA").toBuilder []).1.Err
      = some missingName ∧
    (Create plainURLs silentClient (CreateOpts.mk "" "ssh-rsa AAAA").toBuilder []).2 = [] ∧
    (∀ o : CreateOpts, o.ToQuotaCreateMap.2 ≠ none → o.Name = "") :=
  Create_empty_name plainURLs silentClient [] (CreateOpts.mk "" "ssh-rsa AAAA") rfl

/-! ## Errors carried by the result wrappers -/

/-- C7: for every result wrapper (CreateResult or GetResult) whose Err is an
error e, and every body, Extract returns no record together with e itself;
the body plays no part. -/
theorem Extract_carried_error (body : Value) (e : GoError) :
    CreateResult.Extract ⟨⟨⟨body, some e⟩⟩⟩ = (none, some e) ∧
    GetResult.Extract ⟨⟨⟨body, some e⟩⟩⟩ = (none, some e) ∧
    keyPairResult.Extract ⟨⟨body, some e⟩⟩ = (none, some e) := by
  refine ⟨rfl, rfl, rfl⟩

/-- C8: for every client and every error e: with a non-empty Name, Create
makes exactly one call, a Post of the body built by ToQuotaCreateMap with the
status codes [200], and when that Post fails with e, Extract on the result
returns no record and e itself; Get makes exactly one call, a Get, and when
it fails with e, Extract on the result returns no record and e itself; Delete
makes exactly one call and carries its error. -/
theorem transport_error_deferred (urls : URLBuilders) (client : ServiceClient)
    (calls : List Call) (opts : CreateOpts) (name : String) (e : GoError)
    (h : opts.Name ≠ "") :
    (∃ body, opts.ToQuotaCreateMap = (some body, none) ∧
      (Create urls client opts.toBuilder calls).2
        = calls ++ [Call.post (urls.createURL client) (some body) [200]] ∧
      (∀ b, client.respond calls (Call.post (urls.createURL client) (some body) [200]) = (b, some e) →
        (Create urls client opts.toBuilder calls).1.Extract = (none, some e))) ∧
    (Get urls client name calls).2 = calls ++ [Call.get (urls.getURL client name)] ∧
    (∀ b, client.respond calls (Call.get (urls.getURL client name)) = (b, some e) →
      (Get urls client name calls).1.Extract = (none, some e)) ∧
    (Delete urls client name calls).2 = calls ++ [Call.delete (urls.deleteURL client name)] ∧
    (Delete urls client name calls).1.Err
      = (client.respond calls (Call.delete (urls.deleteURL client name))).2 := by
  have hq := ToQuotaCreateMap_of_name opts h
  refine ⟨⟨_, hq, ?_, ?_⟩, ?_, ?_, ?_, ?_⟩
  · simp [Create, CreateOpts.toBuilder, hq, ServiceClient.Post]
  · intro b hb
    simp [Create, CreateOpts.toBuilder, hq, ServiceClient.Post, hb, CreateResult.Extract,
      keyPairResult.Extract]
  · simp [Get, ServiceClient.Get]
  · intro b hb
    simp [Get, ServiceClient.Get, hb, GetResult.Extract, keyPairResult.Extract]
  · simp [Delete, ServiceClient.Delete]
  · simp [Delete, ServiceClient.Delete]

/-- A failing client: the error comes back from Extract after one Post. -/
theorem transport_error_deferred_witness :
    (Create plainURLs (failingClient (GoError.errorString "connection refused"))
        (CreateOpts.mk "q1" "").toBuilder []).1.Extract
      = (none, some (GoError.errorString "connection refused")) ∧
    (Create plainURLs (failingClient (GoError.errorString "connection refused"))
        (CreateOpts.mk "q1" "").toBuilder []).2
      = [Call.post "os-quota-sets" (some [("quota", Value.obj [("name", Value.str "q1")])]) [200]] := by
  obtain ⟨⟨body, hb, hcalls, hext⟩, -⟩ :=
    transport_error_deferred plainURLs (failingClient (GoError.errorString "connection refused"))
      [] (CreateOpts.mk "q1" "") "q1" (GoError.errorString "connection refused") (by decide)
  have hbody : body = [("quota", Value.obj [("name", Value.str "q1")])] := by
    have h2 : (CreateOpts.mk "q1" "").ToQuotaCreateMap
        = (some [("quota", Value.obj [("name", Value.str "q1")])], none) := by
      simp [CreateOpts.ToQuotaCreateMap, GoMap.set]
    rw [h2] at hb
    simpa using hb.symm
  subst hbody
  exact ⟨hext Value.null rfl, by simpa using hcalls⟩

/-! ## Decoding well-typed fields -/

/-- Whether a value is a string. -/
def Value.isStr : Value → Bool
  | .str _ => true
  | _ => false

/-- Whether a value is a number. -/
def Value.isNum : Value → Bool
  | .num _ _ => true
  | _ => false

/-- An entry of a "quota" map is a well-typed field when its value has the
type of every field its key matches, exactly or up to letter case: a string
for `ID`, a number for a limit. An entry whose key matches no field is
unconstrained. -/
def wellTypedEntry (kv : String × Value) : Bool :=
  (if equalFold kv.1 idTag then kv.2.isStr else true) &&
  IntField.all.all (fun f => if equalFold kv.1 f.tag then kv.2.isNum else true)

/-- A map of well-typed fields. -/
def wellTypedFields (q : GoMap) : Bool := q.all wellTypedEntry

/-- The limit a map gives for a field name: the number the decoder finds for
it, converted to `int`; the default when it finds none. -/
def intAt (q : GoMap) (tag : String) (dflt : GoInt) : GoInt :=
  match fieldValue q tag with
  | some (.num m e) => float64ToInt m e
  | _ => dflt

/-- The string a map gives for a field name: the string the decoder finds for
it; the default when it finds none. -/
def strAt (q : GoMap) (tag : String) (dflt : String) : String :=
  match fieldValue q tag with
  | some (.str s) => s
  | _ => dflt

/-- The record of a "quota" map: every field read under its own tag, the
fields that are not found at their zero value. -/
def QuotaSet.ofFields (q : GoMap) : QuotaSet :=
  { ID := strAt q idTag "",
    FixedIps := intAt q IntField.FixedIps.tag GoInt.zero,
    FloatingIps := intAt q IntField.FloatingIps.tag GoInt.zero,
    InjectedFileContentBytes := intAt q IntField.InjectedFileContentBytes.tag GoInt.zero,
    InjectedFilePathBytes := intAt q IntField.InjectedFilePathBytes.tag GoInt.zero,
    InjectedFiles := intAt q IntField.InjectedFiles.tag GoInt.zero,
    KeyPairs := intAt q IntField.KeyPairs.tag GoInt.zero,
    MetadataItems := intAt q IntField.MetadataItems.tag GoInt.zero,
    Ram := intAt q IntField.Ram.tag GoInt.zero,
    SecurityGroupRules := intAt q IntField.SecurityGroupRules.tag GoInt.zero,
    SecurityGroups := intAt q IntField.SecurityGroups.tag GoInt.zero,
    Cores := intAt q IntField.Cores.tag GoInt.zero,
    Instances := intAt q IntField.Instances.tag GoInt.zero }

theorem GoMap.mem_of_get {m : GoMap} {k : String} {v : Value} (h : m.get k = some v) :
    (k, v) ∈ m := by
  induction m with
  | nil => simp [GoMap.get] at h
  | cons kv rest ih =>
    obtain ⟨k', v'⟩ := kv
    by_cases hk : k' = k
    · simp [GoMap.get, hk] at h
      simp [hk, h]
    · simp [GoMap.get, hk] at h
      exact List.mem_cons_of_mem _ (ih h)

theorem IntField.mem_all (f : IntField) : f ∈ IntField.all := by
  cases f <;> simp [IntField.all]

theorem equalFold_self (s : String) : equalFold s s = true := by
  simp [equalFold]

/-- What the decoder finds for a field name sits in the map under a key that
matches the name. -/
theorem fieldValue_mem {q : GoMap} {tag : String} {v : Value}
    (h : fieldValue q tag = some v) : ∃ k, (k, v) ∈ q ∧ equalFold k tag = true := by
  unfold fieldValue at h
  cases hget : q.get tag with
  | some w =>
    rw [hget] at h
    simp only [Option.some.injEq] at h
    subst h
    exact ⟨tag, GoMap.mem_of_get hget, equalFold_self tag⟩
  | none =>
    rw [hget] at h
    cases hfind : List.find? (fun kv => equalFold kv.1 tag) q with
    | none => rw [hfind] at h; simp at h
    | some kv =>
      rw [hfind] at h
      simp only [Option.map_some', Option.some.injEq] at h
      subst h
      exact ⟨kv.1, List.mem_of_find?_eq_some hfind, by simpa using List.find?_some hfind⟩

/-- A key that equals the field name is the one the decoder reads. -/
theorem fieldValue_of_get {m : GoMap} {tag : String} {v : Value} (h : m.get tag = some v) :
    fieldValue m tag = some v := by
  simp [fieldValue, h]

/-- With no key matching the field name, the decoder finds nothing. -/
theorem fieldValue_none_of_no_key (m : GoMap) (tag : String)
    (h : ∀ kv ∈ m, equalFold kv.1 tag = false) : fieldValue m tag = none := by
  cases hf : fieldValue m tag with
  | none => rfl
  | some v =>
    obtain ⟨k, hmem, hfold⟩ := fieldValue_mem hf
    have := h (k, v) hmem
    simp [hfold] at this

theorem wellTyped_int (q : GoMap) (h : wellTypedFields q = true) (f : IntField) :
    ∀ v, fieldValue q f.tag = some v → v.isNum = true := by
  intro v hv
  obtain ⟨k, hmem, hfold⟩ := fieldValue_mem hv
  have hall := (List.all_eq_true.mp h) (k, v) hmem
  simp only [wellTypedEntry, Bool.and_eq_true, List.all_eq_true] at hall
  have := hall.2 f (IntField.mem_all f)
  simpa [hfold] using this

theorem wellTyped_id (q : GoMap) (h : wellTypedFields q = true) :
    ∀ v, fieldValue q idTag = some v → v.isStr = true := by
  intro v hv
  obtain ⟨k, hmem, hfold⟩ := fieldValue_mem hv
  have hall := (List.all_eq_true.mp h) (k, v) hmem
  simp only [wellTypedEntry, Bool.and_eq_true, List.all_eq_true] at hall
  simpa [hfold] using hall.1

/-- An integer field of a well-typed map decodes without error to the number
found for it, converted, or stays as it was when none is found. -/
theorem decodeField_int (name : String) (q : GoMap) (h : wellTypedFields q = true)
    (f : IntField) (val : GoInt) :
    decodeField decodeInt name q f.tag val = (intAt q f.tag val, none) := by
  have hw := wellTyped_int q h f
  unfold decodeField intAt
  cases hget : fieldValue q f.tag with
  | none => rfl
  | some v =>
    have hnum := hw v hget
    cases v <;> simp [Value.isNum] at hnum
    simp [decodeInt]

/-- The string field of a well-typed map decodes without error. -/
theorem decodeField_id (name : String) (q : GoMap) (h : wellTypedFields q = true)
    (val : String) :
    decodeField decodeString name q idTag val = (strAt q idTag val, none) := by
  have hw := wellTyped_id q h
  unfold decodeField strAt
  cases hget : fieldValue q idTag with
  | none => rfl
  | some v =>
    have hstr := hw v hget
    cases v <;> simp [Value.isStr] at hstr
    simp [decodeString]

/-- The value an integer field takes does not depend on the types in the map
nor on the name errors are reported under. -/
theorem decodeField_int_fst (name : String) (q : GoMap) (tag : String) (val : GoInt) :
    (decodeField decodeInt name q tag val).1 = intAt q tag val := by
  unfold decodeField intAt
  cases hget : fieldValue q tag with
  | none => rfl
  | some v => cases v <;> rfl

/-- The value the string field takes, likewise. -/
theorem decodeField_id_fst (name : String) (q : GoMap) (tag : String) (val : String) :
    (decodeField decodeString name q tag val).1 = strAt q tag val := by
  unfold decodeField strAt
  cases hget : fieldValue q tag with
  | none => rfl
  | some v => cases v <;> rfl

/-- The record a map decodes to, whatever the error and under any name. -/
theorem decodeQuotaSet_fst (name : String) (q : GoMap) :
    (decodeQuotaSet name (Value.obj q) QuotaSet.zero).1 = QuotaSet.ofFields q := by
  simp [decodeQuotaSet, decodeField_int_fst, decodeField_id_fst, QuotaSet.ofFields,
    IntField.read, QuotaSet.zero]

/-- Decoding a map of well-typed fields into a zero `QuotaSet` gives the
record of its fields and no error, under any name. -/
theorem decodeQuotaSet_wellTyped (name : String) (q : GoMap) (h : wellTypedFields q = true) :
    decodeQuotaSet name (Value.obj q) QuotaSet.zero = (QuotaSet.ofFields q, none) := by
  simp [decodeQuotaSet, decodeField_int name q h, decodeField_id name q h, IntField.all,
    collectError, errorOf, QuotaSet.ofFields, IntField.read, QuotaSet.zero]

theorem IntField.read_ofFields (f : IntField) (q : GoMap) :
    f.read (QuotaSet.ofFields q) = intAt q f.tag GoInt.zero := by
  cases f <;> rfl

/-- A whole number within the range of `int` converts to itself. -/
theorem float64ToInt_whole (n : Int)
    (h : -9223372036854775808 ≤ n ∧ n < 9223372036854775808) :
    (float64ToInt n 0).val = n := by
  have ht : Int.tdiv n (2 ^ 0) = n := by simp
  unfold float64ToInt
  rw [dif_pos (by rw [ht]; exact h)]
  exact ht

/-- Extract on a body whose "quota" entry is a map of well-typed fields. -/
theorem Extract_of_wellTyped (body q : GoMap) (hq : body.get "quota" = some (Value.obj q))
    (hw : wellTypedFields q = true) :
    keyPairResult.Extract ⟨⟨Value.obj body, none⟩⟩ = (some (QuotaSet.ofFields q), none) := by
  simp [keyPairResult.Extract, decodeExtractTarget, decodeField, fieldValue, hq,
    decodeQuotaSetPtr, decodeQuotaSet_wellTyped _ q hw, structError, collectError, errorOf]

/-- C3 (as amended): for every result wrapper with no error whose body is a
map holding, under "quota", a map in which every key that matches a field's
tag, exactly or up to letter case, holds a value of the field's type (a
string for ID, a number for a limit), Extract returns no error and a QuotaSet
in which every field whose tag is a key of the "quota" map has the value
stored there (for a limit the number converted to int: the number itself when
it is whole and within the 64-bit range), and every field whose tag matches
no key of the map, exactly or up to letter case, has its zero value. -/
theorem Extract_wellTyped_fields (body q : GoMap)
    (hq : body.get "quota" = some (Value.obj q)) (hw : wellTypedFields q = true) :
    ∃ qs : QuotaSet,
      keyPairResult.Extract ⟨⟨Value.obj body, none⟩⟩ = (some qs, none) ∧
      CreateResult.Extract ⟨⟨⟨Value.obj body, none⟩⟩⟩ = (some qs, none) ∧
      GetResult.Extract ⟨⟨⟨Value.obj body, none⟩⟩⟩ = (some qs, none) ∧
      (∀ v, q.get idTag = some v → v = Value.str qs.ID) ∧
      ((∀ kv ∈ q, equalFold kv.1 idTag = false) → qs.ID = "") ∧
      (∀ f : IntField,
        (∀ v, q.get f.tag = some v → ∃ m e, v = Value.num m e ∧ f.read qs = float64ToInt m e) ∧
        (∀ n : Int, q.get f.tag = some (Value.int n) →
          -9223372036854775808 ≤ n ∧ n < 9223372036854775808 → (f.read qs).val = n) ∧
        ((∀ kv ∈ q, equalFold kv.1 f.tag = false) → f.read qs = GoInt.zero)) := by
  have hex := Extract_of_wellTyped body q hq hw
  refine ⟨QuotaSet.ofFields q, hex, hex, hex, ?_, ?_, ?_⟩
  · intro v hv
    have hfv := fieldValue_of_get hv
    have hstr := wellTyped_id q hw v hfv
    cases v <;> simp [Value.isStr] at hstr
    simp [QuotaSet.ofFields, strAt, hfv]
  · intro hnone
    simp [QuotaSet.ofFields, strAt, fieldValue_none_of_no_key q idTag hnone]
  · intro f
    rw [IntField.read_ofFields]
    refine ⟨?_, ?_, ?_⟩
    · intro v hv
      have hfv := fieldValue_of_get hv
      have hnum := wellTyped_int q hw f v hfv
      cases v with
      | num m e => exact ⟨m, e, rfl, by simp [intAt, hfv]⟩
      | null => simp [Value.isNum] at hnum
      | bool b => simp [Value.isNum] at hnum
      | str t => simp [Value.isNum] at hnum
      | arr xs => simp [Value.isNum] at hnum
      | obj kvs => simp [Value.isNum] at hnum
    · intro n hv hn
      have hfv := fieldValue_of_get hv
      simp only [intAt, hfv, Value.int]
      exact float64ToInt_whole n hn
    · intro hnone
      simp [intAt, fieldValue_none_of_no_key q f.tag hnone]

/-- The body `{"quota":{"id":"abc","cores":10,"instances":5}}`. -/
def abcBody : GoMap :=
  [("quota", Value.obj [("id", Value.str "abc"), ("cores", Value.int 10), ("instances", Value.int 5)])]

/-- The example of the spec: ID "abc", Cores 10, Instances 5, all else zero. -/
theorem Extract_wellTyped_fields_witness :
    (∃ qs : QuotaSet,
      keyPairResult.Extract ⟨⟨Value.obj abcBody, none⟩⟩ = (some qs, none) ∧
      CreateResult.Extract ⟨⟨⟨Value.obj abcBody, none⟩⟩⟩ = (some qs, none) ∧
      GetResult.Extract ⟨⟨⟨Value.obj abcBody, none⟩⟩⟩ = (some qs, none) ∧
      (∀ v, GoMap.get [("id", Value.str "abc"), ("cores", Value.int 10), ("instances", Value.int 5)]
          idTag = some v → v = Value.str qs.ID) ∧
      ((∀ kv ∈ ([("id", Value.str "abc"), ("cores", Value.int 10),
            ("instances", Value.int 5)] : GoMap), equalFold kv.1 idTag = false) → qs.ID = "") ∧
      (∀ f : IntField,
        (∀ v, GoMap.get [("id", Value.str "abc"), ("cores", Value.int 10), ("instances", Value.int 5)]
            f.tag = some v → ∃ m e, v = Value.num m e ∧ f.read qs = float64ToInt m e) ∧
        (∀ n : Int,
          GoMap.get [("id", Value.str "abc"), ("cores", Value.int 10), ("instances", Value.int 5)]
            f.tag = some (Value.int n) →
          -9223372036854775808 ≤ n ∧ n < 9223372036854775808 → (f.read qs).val = n) ∧
        ((∀ kv ∈ ([("id", Value.str "abc"), ("cores", Value.int 10),
            ("instances", Value.int 5)] : GoMap), equalFold kv.1 f.tag = false) →
          f.read qs = GoInt.zero))) ∧
    keyPairResult.Extract ⟨⟨Value.obj abcBody, none⟩⟩
      = (some { QuotaSet.zero with ID := "abc", Cores := ⟨10, by decide⟩,
                                   Instances := ⟨5, by decide⟩ }, none) :=
  ⟨Extract_wellTyped_fields abcBody
      [("id", Value.str "abc"), ("cores", Value.int 10), ("instances", Value.int 5)]
      rfl (by decide),
   by decide⟩

/-- C3 (as stated) fails where a key differs from a tag in letter case: in
`{"quota":{"CORES":3}}` the tag "cores" is absent, yet Extract returns
Cores = 3 and not the zero value. It fails too where a number is no `int`:
`{"quota":{"cores":1e19}}` gives Cores = -9223372036854775808, and
`{"quota":{"cores":2.5}}` gives Cores = 2. -/
theorem Extract_reads_case_variant_key :
    GoMap.get [("CORES", Value.int 3)] "cores" = none ∧
    keyPairResult.Extract ⟨⟨Value.obj [("quota", Value.obj [("CORES", Value.int 3)])], none⟩⟩
      = (some { QuotaSet.zero with Cores := ⟨3, by decide⟩ }, none) ∧
    (⟨3, by decide⟩ : GoInt) ≠ GoInt.zero ∧
    keyPairResult.Extract
        ⟨⟨Value.obj [("quota", Value.obj [("cores", Value.int 10000000000000000000)])], none⟩⟩
      = (some { QuotaSet.zero with Cores := ⟨-9223372036854775808, by decide⟩ }, none) ∧
    keyPairResult.Extract ⟨⟨Value.obj [("quota", Value.obj [("cores", Value.num 5 1)])], none⟩⟩
      = (some { QuotaSet.zero with Cores := ⟨2, by decide⟩ }, none) := by
  refine ⟨rfl, by decide, by decide, by decide, by decide⟩

/-! ## Decoding a list page -/

/-- The list entry `{"quota": q}`. -/
def quotaEntry (q : GoMap) : Value := Value.obj [("quota", Value.obj q)]

/-- The copying loop of `ExtractQuotaSets`, started after `pre.length` stores. -/
theorem copy_loop_from {β γ : Type} (g : β → γ) (z : γ) (l : List β) (pre : List γ) :
    (l.enumFrom pre.length).foldl (fun rs ip => rs.set ip.1 (g ip.2))
        (pre ++ List.replicate l.length z)
      = pre ++ l.map g := by
  induction l generalizing pre with
  | nil => simp
  | cons x rest ih =>
    have h := ih (pre ++ [g x])
    simp only [List.length_append, List.length_singleton, List.append_assoc,
      List.singleton_append] at h
    simp only [List.enumFrom_cons, List.foldl_cons, List.length_cons, List.replicate_succ,
      List.map_cons]
    rw [List.set_append_right _ _ (le_refl _)]
    simpa using h

/-- The copying loop of `ExtractQuotaSets` stores element `i` at index `i`. -/
theorem copy_loop {β γ : Type} (g : β → γ) (z : γ) (l : List β) :
    l.enum.foldl (fun rs ip => rs.set ip.1 (g ip.2)) (List.replicate l.length z) = l.map g := by
  simpa [List.enum] using copy_loop_from g z l []

/-- `ExtractQuotaSets` returns the quota sets of the decoded pairs, in order,
with the error of the decode. -/
theorem ExtractQuotaSets_eq (page : QuotaSetPage) :
    ExtractQuotaSets page
      = (((decodeListTarget "" page.Body []).1).map pair.QuotaSet,
         (decodeListTarget "" page.Body []).2) := by
  simp [ExtractQuotaSets, copy_loop]

theorem foldl_collectError_none (errs : List (Option GoError)) (acc : List String)
    (h : ∀ e ∈ errs, e = none) : errs.foldl collectError acc = acc := by
  induction errs generalizing acc with
  | nil => rfl
  | cons e rest ih =>
    have he : e = none := h e (List.mem_cons_self _ _)
    subst he
    simpa [collectError] using ih acc (fun e he => h e (List.mem_cons_of_mem _ he))

/-- A list entry `{"quota": q}` of well-typed fields decodes without error,
under any name. -/
theorem decodePair_wellTyped (name : String) (q : GoMap) (hw : wellTypedFields q = true) :
    decodePair name (quotaEntry q) pair.zero = (⟨QuotaSet.ofFields q⟩, none) := by
  simp [decodePair, quotaEntry, decodeField, fieldValue, GoMap.get, pair.zero,
    decodeQuotaSet_wellTyped _ q hw, structError, collectError, errorOf]

/-- The record a list entry `{"quota": q}` decodes to, whatever the error. -/
theorem decodePair_fst (name : String) (q : GoMap) :
    (decodePair name (quotaEntry q) pair.zero).1 = ⟨QuotaSet.ofFields q⟩ := by
  simp [decodePair, quotaEntry, decodeField, fieldValue, GoMap.get, pair.zero,
    decodeQuotaSet_fst]

/-- The elements of a decoded slice of entries `{"quota": q}`, from any index on. -/
theorem decode_elems_from (name : String) (n : Nat) (l : List GoMap) :
    (((l.map quotaEntry).enumFrom n).map
      (fun ix => decodePair (name ++ "[" ++ toString ix.1 ++ "]") ix.2 pair.zero)).map Prod.fst
      = l.map (fun q => (⟨QuotaSet.ofFields q⟩ : pair)) := by
  induction l generalizing n with
  | nil => rfl
  | cons q rest ih =>
    simp only [List.map_cons, List.enumFrom_cons]
    rw [decodePair_fst, ih (n + 1)]

/-- The errors of a decoded slice of entries of well-typed fields: none. -/
theorem decode_elems_errors (name : String) (n : Nat) (l : List GoMap)
    (hl : ∀ q ∈ l, wellTypedFields q = true) :
    ∀ e ∈ (((l.map quotaEntry).enumFrom n).map
      (fun ix => decodePair (name ++ "[" ++ toString ix.1 ++ "]") ix.2 pair.zero)).map Prod.snd,
      e = none := by
  induction l generalizing n with
  | nil => intro e he; simp at he
  | cons q rest ih =>
    intro e he
    simp only [List.map_cons, List.enumFrom_cons, List.mem_cons] at he
    rcases he with he | he
    · rw [he, decodePair_wellTyped _ q (hl q (List.mem_cons_self _ _))]
    · exact ih (n + 1) (fun q hq => hl q (List.mem_cons_of_mem _ hq)) e he

/-- The records `ExtractQuotaSets` returns for a slice of entries
`{"quota": q}`, whatever the error: one for each entry, in order. -/
theorem ExtractQuotaSets_records (body : GoMap) (qs : List GoMap)
    (hb : body.get "quotasets" = some (Value.arr (qs.map quotaEntry))) :
    (ExtractQuotaSets ⟨Value.obj body⟩).1 = qs.map QuotaSet.ofFields := by
  rw [ExtractQuotaSets_eq]
  simp only [decodeListTarget, decodeField, fieldValue, hb, decodePairSlice, List.enum]
  rw [decode_elems_from]
  simp [Function.comp_def]

/-- The error `ExtractQuotaSets` returns for a slice of entries `{"quota": q}`
of well-typed fields: none. -/
theorem ExtractQuotaSets_no_error (body : GoMap) (qs : List GoMap)
    (hb : body.get "quotasets" = some (Value.arr (qs.map quotaEntry)))
    (hw : ∀ q ∈ qs, wellTypedFields q = true) :
    (ExtractQuotaSets ⟨Value.obj body⟩).2 = none := by
  rw [ExtractQuotaSets_eq]
  simp only [decodeListTarget, decodeField, fieldValue, hb, decodePairSlice, List.enum]
  rw [foldl_collectError_none _ _ (decode_elems_errors _ 0 qs hw)]
  simp [structError, collectError, errorOf]

/-- `ExtractQuotaSets` on a body whose "quotasets" entry is a slice of entries
`{"quota": q}` of well-typed fields. -/
theorem ExtractQuotaSets_of_wellTyped (body : GoMap) (qs : List GoMap)
    (hb : body.get "quotasets" = some (Value.arr (qs.map quotaEntry)))
    (hw : ∀ q ∈ qs, wellTypedFields q = true) :
    ExtractQuotaSets ⟨Value.obj body⟩ = (qs.map QuotaSet.ofFields, none) := by
  rw [Prod.ext_iff]
  exact ⟨ExtractQuotaSets_records body qs hb, ExtractQuotaSets_no_error body qs hb hw⟩

/-- C6: for every QuotaSetPage whose body holds, under "quotasets", a slice of
n entries `{"quota": q_i}`, ExtractQuotaSets returns exactly n QuotaSets, the
i-th of which is the record that decoding q_i gives, for every i < n; and
when the q_i are maps of well-typed fields it returns no error, and the i-th
record is the one Extract returns for `{"quota": q_i}`. -/
theorem ExtractQuotaSets_wellTyped (body : GoMap) (qs : List GoMap)
    (hb : body.get "quotasets" = some (Value.arr (qs.map quotaEntry))) :
    ∃ (rs : List QuotaSet) (err : Option GoError),
      ExtractQuotaSets ⟨Value.obj body⟩ = (rs, err) ∧
      rs.length = qs.length ∧
      (∀ (i : Nat) (q : GoMap), qs[i]? = some q →
        rs[i]? = some (decodeQuotaSet "quota" (Value.obj q) QuotaSet.zero).1) ∧
      ((∀ q ∈ qs, wellTypedFields q = true) →
        err = none ∧
        ∀ (i : Nat) (q : GoMap), qs[i]? = some q →
          ∃ r : QuotaSet, rs[i]? = some r ∧
            keyPairResult.Extract ⟨⟨quotaEntry q, none⟩⟩ = (some r, none)) := by
  have hrec := ExtractQuotaSets_records body qs hb
  refine ⟨qs.map QuotaSet.ofFields, (ExtractQuotaSets ⟨Value.obj body⟩).2, ?_, by simp, ?_, ?_⟩
  · rw [← hrec]
  · intro i q hi
    rw [decodeQuotaSet_fst]
    simp [hi]
  · intro hw
    refine ⟨ExtractQuotaSets_no_error body qs hb hw, ?_⟩
    intro i q hi
    refine ⟨QuotaSet.ofFields q, by simp [hi], ?_⟩
    exact Extract_of_wellTyped [("quota", Value.obj q)] q (by simp [GoMap.get])
      (hw q (List.getElem?_mem hi))

/-- A list body with two entries. -/
def twoEntries : GoMap :=
  [("quotasets", Value.arr
    [quotaEntry [("id", Value.str "a"), ("cores", Value.int 1)],
     quotaEntry [("id", Value.str "b"), ("cores", Value.int 2), ("ram", Value.int 512)]])]

/-- The quota maps of `twoEntries`. -/
def twoQuotas : List GoMap :=
  [[("id", Value.str "a"), ("cores", Value.int 1)],
   [("id", Value.str "b"), ("cores", Value.int 2), ("ram", Value.int 512)]]

theorem twoQuotas_wellTyped : ∀ q ∈ twoQuotas, wellTypedFields q = true := by
  decide

/-- Two entries come back as two records, in the order of the response. -/
theorem ExtractQuotaSets_wellTyped_witness :
    (∃ rs : List QuotaSet,
      ExtractQuotaSets ⟨Value.obj twoEntries⟩ = (rs, none) ∧
      rs.length = twoQuotas.length ∧
      (∀ (i : Nat) (q : GoMap), twoQuotas[i]? = some q →
        rs[i]? = some (decodeQuotaSet "quota" (Value.obj q) QuotaSet.zero).1) ∧
      (∀ (i : Nat) (q : GoMap), twoQuotas[i]? = some q →
        ∃ r : QuotaSet, rs[i]? = some r ∧
          keyPairResult.Extract ⟨⟨quotaEntry q, none⟩⟩ = (some r, none))) ∧
    ExtractQuotaSets ⟨Value.obj twoEntries⟩
      = ([{ QuotaSet.zero with ID := "a", Cores := ⟨1, by decide⟩ },
          { QuotaSet.zero with ID := "b", Cores := ⟨2, by decide⟩, Ram := ⟨512, by decide⟩ }],
         none) := by
  obtain ⟨rs, err, h, hlen, hrec, himp⟩ := ExtractQuotaSets_wellTyped twoEntries twoQuotas rfl
  obtain ⟨herr, hrel⟩ := himp twoQuotas_wellTyped
  subst herr
  exact ⟨⟨rs, h, hlen, hrec, hrel⟩, by decide⟩

/-- C9: for every QuotaSetPage p, IsEmpty(p) is (length of records = 0, err)
where (records, err) = ExtractQuotaSets(p): a well-formed list response with
zero entries gives true with no error, one with at least one entry gives
false with no error, and an error of the decode is the error IsEmpty returns. -/
theorem IsEmpty_spec (page : QuotaSetPage) :
    page.IsEmpty = ((ExtractQuotaSets page).1.length == 0, (ExtractQuotaSets page).2) ∧
    (∀ body : GoMap, page.Body = Value.obj body →
      body.get "quotasets" = some (Value.arr []) → page.IsEmpty = (true, none)) ∧
    (∀ (body : GoMap) (qs : List GoMap), page.Body = Value.obj body →
      body.get "quotasets" = some (Value.arr (qs.map quotaEntry)) →
      (∀ q ∈ qs, wellTypedFields q = true) → 0 < qs.length → page.IsEmpty = (false, none)) ∧
    (∀ e, (ExtractQuotaSets page).2 = some e → page.IsEmpty.2 = some e) := by
  obtain ⟨b⟩ := page
  refine ⟨rfl, ?_, ?_, ?_⟩
  · intro body hbody hget
    subst hbody
    have h := ExtractQuotaSets_of_wellTyped body [] (by simpa using hget) (by simp)
    simp [QuotaSetPage.IsEmpty, h]
  · intro body qs hbody hget hw hpos
    subst hbody
    have h := ExtractQuotaSets_of_wellTyped body qs hget hw
    have hne : qs ≠ [] := by
      intro hnil
      simp [hnil] at hpos
    simp [QuotaSetPage.IsEmpty, h, hne]
  · intro e he
    simp [QuotaSetPage.IsEmpty, he]

/-- An empty page, a page of two entries, and a page that is no map. -/
theorem IsEmpty_spec_witness :
    QuotaSetPage.IsEmpty ⟨Value.obj [("quotasets", Value.arr [])]⟩ = (true, none) ∧
    QuotaSetPage.IsEmpty ⟨Value.obj twoEntries⟩ = (false, none) ∧
    (QuotaSetPage.IsEmpty ⟨Value.str "oops"⟩).2
      = some (GoError.errorString "'' expected a map, got 'string'") :=
  ⟨(IsEmpty_spec ⟨Value.obj [("quotasets", Value.arr [])]⟩).2.1 _ rfl rfl,
   (IsEmpty_spec ⟨Value.obj twoEntries⟩).2.2.1 twoEntries twoQuotas rfl rfl
     twoQuotas_wellTyped (by decide),
   (IsEmpty_spec ⟨Value.str "oops"⟩).2.2.2 _ rfl⟩

/-! ## The metadata-items tag -/

/-- The fields of the sample document of results.go, as a "quota" map. -/
def sampleFields : GoMap :=
  [("fixed_ips", .int (-1)),
   ("security_groups", .int 10),
   ("id", .str "56b6c3eb639e48c691052919e5a60dc3"),
   ("injected_files", .int 5),
   ("floating_ips", .int 0),
   ("injected_file_path_bytes", .int 255),
   ("cores", .int 108),
   ("security_group_rules", .int 20),
   ("key_pairs", .int 10),
   ("instances", .int 25),
   ("ram", .int 204800),
   ("metadata_items", .int 128),
   ("injected_file_content_bytes", .int 10240)]

/-- C5 (what the code does): a "quota" map that carries "metadata_items": x
decodes with MetadataItems = 0 for every number x, through Extract and
through ExtractQuotaSets alike, since the tag on the field is
"meta_data_items"; under that tag x is read (converted to int). On the fields
of the sample document every limit is read but MetadataItems, which stays 0
where the document has 128. -/
theorem metadata_items_not_read (m : Int) (e : Nat) :
    keyPairResult.Extract ⟨⟨quotaEntry [("metadata_items", Value.num m e)], none⟩⟩
      = (some QuotaSet.zero, none) ∧
    ExtractQuotaSets ⟨Value.obj [("quotasets",
        Value.arr [quotaEntry [("metadata_items", Value.num m e)]])]⟩
      = ([QuotaSet.zero], none) ∧
    keyPairResult.Extract ⟨⟨quotaEntry [("meta_data_items", Value.num m e)], none⟩⟩
      = (some { QuotaSet.zero with MetadataItems := float64ToInt m e }, none) ∧
    keyPairResult.Extract ⟨⟨quotaEntry sampleFields, none⟩⟩
      = (some { ID := "56b6c3eb639e48c691052919e5a60dc3", FixedIps := ⟨-1, by decide⟩,
                FloatingIps := ⟨0, by decide⟩,
                InjectedFileContentBytes := ⟨10240, by decide⟩,
                InjectedFilePathBytes := ⟨255, by decide⟩,
                InjectedFiles := ⟨5, by decide⟩, KeyPairs := ⟨10, by decide⟩,
                MetadataItems := ⟨0, by decide⟩, Ram := ⟨204800, by decide⟩,
                SecurityGroupRules := ⟨20, by decide⟩, SecurityGroups := ⟨10, by decide⟩,
                Cores := ⟨108, by decide⟩, Instances := ⟨25, by decide⟩ }, none) := by
  have hw1 : wellTypedFields [("metadata_items", Value.num m e)] = true := rfl
  have hw2 : wellTypedFields [("meta_data_items", Value.num m e)] = true := rfl
  refine ⟨?_, ?_, ?_, by decide⟩
  · exact Extract_of_wellTyped [("quota", Value.obj [("metadata_items", Value.num m e)])] _ rfl hw1
  · have h := ExtractQuotaSets_of_wellTyped
      [("quotasets", Value.arr [quotaEntry [("metadata_items", Value.num m e)]])]
      [[("metadata_items", Value.num m e)]] rfl (by simpa using hw1)
    simpa using h
  · exact Extract_of_wellTyped [("quota", Value.obj [("meta_data_items", Value.num m e)])] _ rfl hw2

/-! ## Bodies without a container under "quota" -/

/-- Whether a value is a map. -/
def Value.isObj : Value → Bool
  | .obj _ => true
  | _ => false

/-- A failed `QuotaSet` decode reports at least one message. -/
theorem decodeQuotaSet_error_nonempty (name : String) (v : Value) (val : QuotaSet)
    (err : GoError) (h : (decodeQuotaSet name v val).2 = some err) :
    appendErrors [] err ≠ [] := by
  cases v with
  | obj m =>
    simp only [decodeQuotaSet, errorOf] at h
    split at h
    · rename_i hlen
      simp only [Option.some.injEq] at h
      subst h
      simp only [appendErrors, List.nil_append]
      intro hnil
      rw [hnil] at hlen
      simp at hlen
    · simp at h
  | null => simp [decodeQuotaSet] at h
  | bool b => simp [decodeQuotaSet] at h; subst h; simp [appendErrors]
  | num m e => simp [decodeQuotaSet] at h; subst h; simp [appendErrors]
  | str t => simp [decodeQuotaSet] at h; subst h; simp [appendErrors]
  | arr xs => simp [decodeQuotaSet] at h; subst h; simp [appendErrors]

/-- C4 (as amended): for a result wrapper with no error, Extract returns no
record and no error when the body is nil, is a map none of whose keys is
"quota" (exactly or up to letter case), or holds nil under "quota"; it
returns no record and a non-nil error when the body is neither nil nor a map,
and when the value under "quota" is not nil and does not decode as a QuotaSet,
as is the case of every value there that is neither nil nor a map. -/
theorem Extract_without_container (body : Value) :
    (body = Value.null → keyPairResult.Extract ⟨⟨body, none⟩⟩ = (none, none)) ∧
    (∀ m : GoMap, body = Value.obj m → (∀ kv ∈ m, equalFold kv.1 "quota" = false) →
      keyPairResult.Extract ⟨⟨body, none⟩⟩ = (none, none)) ∧
    (∀ m : GoMap, body = Value.obj m → m.get "quota" = some Value.null →
      keyPairResult.Extract ⟨⟨body, none⟩⟩ = (none, none)) ∧
    (body ≠ Value.null → body.isObj = false →
      ∃ e, keyPairResult.Extract ⟨⟨body, none⟩⟩ = (none, some e)) ∧
    (∀ (m : GoMap) (v : Value), body = Value.obj m → m.get "quota" = some v →
      v ≠ Value.null → (decodeQuotaSet "quota" v QuotaSet.zero).2 ≠ none →
      ∃ e, keyPairResult.Extract ⟨⟨body, none⟩⟩ = (none, some e)) ∧
    (∀ (name : String) (v : Value), v ≠ Value.null → v.isObj = false →
      (decodeQuotaSet name v QuotaSet.zero).2 ≠ none) := by
  refine ⟨?_, ?_, ?_, ?_, ?_, ?_⟩
  · intro h
    subst h
    rfl
  · intro m hm hkeys
    subst hm
    simp [keyPairResult.Extract, decodeExtractTarget, decodeField,
      fieldValue_none_of_no_key m "quota" hkeys, structError, collectError, errorOf]
  · intro m hm hget
    subst hm
    simp [keyPairResult.Extract, decodeExtractTarget, decodeField, fieldValue_of_get hget,
      decodeQuotaSetPtr, structError, collectError, errorOf]
  · intro hnull hobj
    cases body with
    | null => exact absurd rfl hnull
    | obj m => simp [Value.isObj] at hobj
    | bool b => exact ⟨_, rfl⟩
    | num m e => exact ⟨_, rfl⟩
    | str t => exact ⟨_, rfl⟩
    | arr xs => exact ⟨_, rfl⟩
  · intro m v hm hget hnull hdec
    subst hm
    have hpath : fieldPath "" "quota" = "quota" := by decide
    cases hd : decodeQuotaSet "quota" v QuotaSet.zero with
    | mk realVal err =>
      cases err with
      | none => rw [hd] at hdec; exact absurd rfl hdec
      | some err =>
        have hne := decodeQuotaSet_error_nonempty "quota" v QuotaSet.zero err (by rw [hd])
        refine ⟨GoError.decodeError (appendErrors [] err), ?_⟩
        have hptr : decodeQuotaSetPtr "quota" v none = (none, some err) := by
          cases v with
          | null => exact absurd rfl hnull
          | obj q => simp only [decodeQuotaSetPtr, hd]
          | bool b => simp only [decodeQuotaSetPtr, hd]
          | num m e => simp only [decodeQuotaSetPtr, hd]
          | str t => simp only [decodeQuotaSetPtr, hd]
          | arr xs => simp only [decodeQuotaSetPtr, hd]
        have hlen : 0 < (appendErrors [] err).length := List.length_pos.mpr hne
        simp [keyPairResult.Extract, decodeExtractTarget, decodeField, fieldValue_of_get hget,
          hpath, hptr, structError, collectError, errorOf, hlen]
  · intro name v hnull hobj
    cases v with
    | null => exact absurd rfl hnull
    | obj m => simp [Value.isObj] at hobj
    | bool b => simp [decodeQuotaSet]
    | num m e => simp [decodeQuotaSet]
    | str t => simp [decodeQuotaSet]
    | arr xs => simp [decodeQuotaSet]

/-- A string under "quota" is an error; a body keyed "Quota_Set" is not. -/
theorem Extract_without_container_witness :
    (∃ e, keyPairResult.Extract ⟨⟨Value.obj [("quota", Value.str "oops")], none⟩⟩ = (none, some e)) ∧
    keyPairResult.Extract ⟨⟨Value.obj [("Quota_Set", Value.obj [])], none⟩⟩ = (none, none) :=
  ⟨(Extract_without_container (Value.obj [("quota", Value.str "oops")])).2.2.2.2.1
      [("quota", Value.str "oops")] (Value.str "oops") rfl rfl (by simp) (by simp [decodeQuotaSet]),
   (Extract_without_container (Value.obj [("Quota_Set", Value.obj [])])).2.1
      [("Quota_Set", Value.obj [])] rfl (by decide)⟩

/-- C4 (as stated) fails on the sample document of results.go, which is keyed
"quota_set": Extract returns no record and no error. -/
theorem Extract_sample_no_error :
    keyPairResult.Extract ⟨⟨sample, none⟩⟩ = (none, none) ∧
    ¬ ∃ e, (keyPairResult.Extract ⟨⟨sample, none⟩⟩).2 = some e := by
  have h : keyPairResult.Extract ⟨⟨sample, none⟩⟩ = (none, none) := by decide
  refine ⟨h, ?_⟩
  rw [h]
  simp

/-! ## The server-creation extension -/

theorem MapObject.get_set_self (m : MapObject) (k : String) (v : Cell) :
    (m.set k v).get k = some v := by
  induction m with
  | nil => simp [MapObject.set, MapObject.get]
  | cons kv rest ih =>
    obtain ⟨k', v'⟩ := kv
    by_cases hk : k' = k
    · simp [MapObject.set, MapObject.get, hk]
    · simpa [MapObject.set, MapObject.get, hk] using ih

theorem MapObject.get_set_ne (m : MapObject) (k k₂ : String) (v : Cell) (h : k₂ ≠ k) :
    (m.set k v).get k₂ = m.get k₂ := by
  induction m with
  | nil => simp [MapObject.set, MapObject.get, Ne.symm h]
  | cons kv rest ih =>
    obtain ⟨k', v'⟩ := kv
    by_cases hk : k' = k
    · subst hk
      simp [MapObject.set, MapObject.get, Ne.symm h]
    · by_cases hk2 : k' = k₂
      · subst hk2
        simp [MapObject.set, MapObject.get, h]
      · simpa [MapObject.set, MapObject.get, hk, hk2] using ih

theorem MapObject.mem_keys_set (m : MapObject) (k k₂ : String) (v : Cell) :
    k₂ ∈ (m.set k v).keys ↔ k₂ ∈ m.keys ∨ k₂ = k := by
  induction m with
  | nil => simp [MapObject.set, MapObject.keys]
  | cons kv rest ih =>
    obtain ⟨k', v'⟩ := kv
    by_cases hk : k' = k
    · subst hk
      simp only [MapObject.set, if_true, MapObject.keys, List.map_cons, List.mem_cons]
      tauto
    · simp only [MapObject.keys] at ih
      simp only [MapObject.set, hk, if_false, MapObject.keys, List.map_cons, List.mem_cons, ih]
      tauto

/-- C10 (as amended): when the base builder returns, with no error, a map m
whose "server" entry is a non-nil map s, CreateOptsExt.ToServerCreateMap
returns no error and the map m itself. With an empty KeyName nothing is
written. With a non-empty KeyName the one write is into the map object s, in
place: "key_name" is set to KeyName, whether or not s had that key; every
other key of s keeps its value, no other key is added, and no other map
object changes, so every entry of m keeps what the base put there, and an
entry that holds the same map object as "server" shows the new key too. When
the base builder fails, its error is returned unchanged with no map. When s
is a nil map and KeyName is non-empty, the call panics. -/
theorem ToServerCreateMap_frame (base : ServerCreateOptsBuilder) (keyName : String)
    (heap : Heap) :
    (∀ (m : Option Nat) (err : GoError) (h1 : Heap),
      base.ToServerCreateMap heap = Outcome.returned ((m, some err), h1) →
      (CreateOptsExt.mk base keyName).ToServerCreateMap heap
        = Outcome.returned ((none, some err), h1)) ∧
    (∀ (m s : Nat) (h1 : Heap),
      base.ToServerCreateMap heap = Outcome.returned ((some m, none), h1) →
      h1.index (some m) "server" = some (Cell.map (some s)) →
      ∃ h2 : Heap,
        (CreateOptsExt.mk base keyName).ToServerCreateMap heap
          = Outcome.returned ((some m, none), h2) ∧
        (keyName = "" → h2 = h1) ∧
        (keyName ≠ "" → (h2 s).get "key_name" = some (Cell.str keyName)) ∧
        (∀ k, k ≠ "key_name" → (h2 s).get k = (h1 s).get k) ∧
        (∀ k, k ∈ (h2 s).keys ↔ k ∈ (h1 s).keys ∨ (k = "key_name" ∧ keyName ≠ "")) ∧
        (∀ b, b ≠ s → h2 b = h1 b) ∧
        (∀ k, k ≠ "key_name" → h2.index (some m) k = h1.index (some m) k)) ∧
    (∀ (m : Option Nat) (h1 : Heap),
      base.ToServerCreateMap heap = Outcome.returned ((m, none), h1) →
      h1.index m "server" = some (Cell.map none) → keyName ≠ "" →
      (CreateOptsExt.mk base keyName).ToServerCreateMap heap = Outcome.panicked) := by
  refine ⟨?_, ?_, ?_⟩
  · intro m err h1 hbase
    simp [CreateOptsExt.ToServerCreateMap, hbase]
  · intro m s h1 hbase hserver
    by_cases hk : keyName = ""
    · refine ⟨h1, ?_, fun _ => rfl, fun hne => absurd hk hne, fun _ _ => rfl, ?_,
        fun _ _ => rfl, fun _ _ => rfl⟩
      · simp [CreateOptsExt.ToServerCreateMap, hbase, hk]
      · intro k
        simp [hk]
    · have hat : (h1.assign s "key_name" (Cell.str keyName)) s
          = MapObject.set (h1 s) "key_name" (Cell.str keyName) := by
        simp [Heap.assign]
      have hother : ∀ b, b ≠ s → (h1.assign s "key_name" (Cell.str keyName)) b = h1 b := by
        intro b hb
        simp [Heap.assign, hb]
      refine ⟨h1.assign s "key_name" (Cell.str keyName), ?_, ?_, ?_, ?_, ?_, hother, ?_⟩
      · simp [CreateOptsExt.ToServerCreateMap, hbase, hk, hserver]
      · intro he
        exact absurd he hk
      · intro _
        rw [hat]
        exact MapObject.get_set_self _ _ _
      · intro k hkk
        rw [hat]
        exact MapObject.get_set_ne _ _ k _ hkk
      · intro k
        rw [hat, MapObject.mem_keys_set]
        simp [hk]
      · intro k hkk
        by_cases hms : m = s
        · subst hms
          simp only [Heap.index]
          rw [hat]
          exact MapObject.get_set_ne _ _ k _ hkk
        · simp only [Heap.index]
          rw [hother m hms]
  · intro m h1 hbase hserver hk
    simp [CreateOptsExt.ToServerCreateMap, hbase, hk, hserver]

/-- A base builder that returns the map at the given reference, no error,
and the memory as it found it. -/
def fixedBuilder (m : Option Nat) : ServerCreateOptsBuilder :=
  ⟨fun heap => Outcome.returned ((m, none), heap)⟩

/-- A memory with the base map at address 0: a map with a name and an image
under "server" (address 1), the same map again under "template", and another
map (address 2) under a third key. -/
def serverHeap : Heap := fun a =>
  match a with
  | 0 => [("server", Cell.map (some 1)), ("template", Cell.map (some 1)),
          ("os:scheduler_hints", Cell.map (some 2))]
  | 1 => [("name", Cell.str "vm"), ("imageRef", Cell.str "img")]
  | _ => []

/-- A key name is written into the map under "server"; the base map and the
map at address 2 are as they were; a nil map under "server" panics. -/
theorem ToServerCreateMap_frame_witness :
    (∃ h2 : Heap,
      (CreateOptsExt.mk (fixedBuilder (some 0)) "k1").ToServerCreateMap serverHeap
        = Outcome.returned ((some 0, none), h2) ∧
      (h2 1).get "key_name" = some (Cell.str "k1") ∧
      (h2 1).get "name" = some (Cell.str "vm") ∧
      h2 0 = serverHeap 0 ∧ h2 2 = serverHeap 2) ∧
    (CreateOptsExt.mk ⟨fun heap => Outcome.returned ((none, some missingName), heap)⟩
        "k1").ToServerCreateMap serverHeap
      = Outcome.returned ((none, some missingName), serverHeap) ∧
    (CreateOptsExt.mk (fixedBuilder (some 0)) "k1").ToServerCreateMap
        (fun _ => [("server", Cell.map none)])
      = Outcome.panicked := by
  refine ⟨?_, ?_, ?_⟩
  · obtain ⟨h2, hres, -, hkey, hkeep, -, hother, -⟩ :=
      (ToServerCreateMap_frame (fixedBuilder (some 0)) "k1" serverHeap).2.1 0 1 serverHeap rfl rfl
    refine ⟨h2, hres, hkey (by decide), ?_, hother 0 (by decide), hother 2 (by decide)⟩
    rw [hkeep "name" (by decide)]
    rfl
  · exact (ToServerCreateMap_frame
      ⟨fun heap => Outcome.returned ((none, some missingName), heap)⟩ "k1" serverHeap).1
      none missingName serverHeap rfl
  · exact (ToServerCreateMap_frame (fixedBuilder (some 0)) "k1"
      (fun _ => [("server", Cell.map none)])).2.2 (some 0) _ rfl rfl (by decide)

/-- The extension with key name "a" over the base map, used as a base builder. -/
def innerExt : CreateOptsExt := ⟨fixedBuilder (some 0), "a"⟩

/-- The extension with key name "b" layered over `innerExt`. -/
def outerExt : CreateOptsExt := ⟨innerExt.toBuilder, "b"⟩

/-- C10 (as stated) fails when the base already produced "key_name": layered
over a builder whose "server" map holds "key_name" = "a", the extension with
KeyName "b" leaves "key_name" = "b" in that map, not the value the base gave
it. It fails too for the key "template" of the base map, which holds the same
map object as "server": the base left no "key_name" to be read through it,
and the extension with KeyName "a" adds one there as well. -/
theorem ToServerCreateMap_overwrites_key_name :
    outerExt.CreateOptsBuilder.ToServerCreateMap serverHeap
      = Outcome.returned ((some 0, none), serverHeap.assign 1 "key_name" (Cell.str "a")) ∧
    Heap.index (serverHeap.assign 1 "key_name" (Cell.str "a")) (some 0) "server"
      = some (Cell.map (some 1)) ∧
    MapObject.get ((serverHeap.assign 1 "key_name" (Cell.str "a")) 1) "key_name"
      = some (Cell.str "a") ∧
    outerExt.ToServerCreateMap serverHeap
      = Outcome.returned ((some 0, none),
          (serverHeap.assign 1 "key_name" (Cell.str "a")).assign 1 "key_name" (Cell.str "b")) ∧
    MapObject.get (((serverHeap.assign 1 "key_name" (Cell.str "a")).assign 1 "key_name"
        (Cell.str "b")) 1) "key_name" = some (Cell.str "b") ∧
    Cell.str "b" ≠ Cell.str "a" ∧
    Heap.index serverHeap (some 0) "template" = some (Cell.map (some 1)) ∧
    MapObject.get (serverHeap 1) "key_name" = none ∧
    Heap.index (serverHeap.assign 1 "key_name" (Cell.str "a")) (some 0) "template"
      = some (Cell.map (some 1)) := by
  refine ⟨rfl, rfl, rfl, rfl, rfl, by simp, rfl, rfl, rfl⟩

end Quotasets
